import Mathlib

/-!
Verification of the bot-panel configuration store.

This file gives a shallow embedding of the configuration store of the
repository (the `Database` class in `src/database.py` together with the
route handlers in `src/app.py`).  SQLite tables become Lean lists, the
process-wide lock makes every accessor call atomic, so each accessor is
modelled as a pure function from store state to store state.  Wall-clock
timestamps and the random session token are passed as explicit arguments,
and the SHA-256 digest used for the admin password is passed as an
abstract function argument.  Audit timestamp columns (`created_at`,
`updated_at`, `last_tested` times) that no modelled operation ever reads
are carried as plain data or omitted where noted.
-/

/-! ## Generic list helpers (dict / ORDER BY / substring semantics) -/

/-- First-match association lookup: the semantics of
`SELECT value FROM t WHERE key = ?` on a primary-key column. -/
def lookupFirst : List (String × String) → String → Option String
  | [], _ => none
  | (k, v) :: rest, key => if k = key then some v else lookupFirst rest key

/-- Python-dict lookup on a list of key/value pairs built by a dict
comprehension: the *last* binding for a key wins. -/
def dictGet : List (String × String) → String → Option String
  | [], _ => none
  | (k, v) :: rest, key =>
    match dictGet rest key with
    | some w => some w
    | none => if k = key then some v else none

/-- `INSERT OR REPLACE` on a primary-key column: replace the existing row
for the key, or append a fresh row. -/
def upsertKV : List (String × String) → String → String → List (String × String)
  | [], k, v => [(k, v)]
  | (k', v') :: rest, k, v =>
    if k' = k then (k, v) :: rest else (k', v') :: upsertKV rest k v

/-- Insert into a list sorted by the boolean relation `le`. -/
def insertLe {α : Type} (le : α → α → Bool) (x : α) : List α → List α
  | [] => [x]
  | y :: ys => if le x y then x :: y :: ys else y :: insertLe le x ys

/-- Insertion sort by the boolean relation `le`: the model of `ORDER BY`. -/
def sortByLe {α : Type} (le : α → α → Bool) : List α → List α
  | [] => []
  | x :: xs => insertLe le x (sortByLe le xs)

/-- `needle` occurs at the start of `hay`. -/
def segStarts : List Char → List Char → Bool
  | [], _ => true
  | _ :: _, [] => false
  | a :: as, b :: bs => decide (a = b) && segStarts as bs

/-- `needle` occurs as a contiguous segment (substring) of `hay`. -/
def hasSeg (needle : List Char) : List Char → Bool
  | [] => segStarts needle []
  | c :: rest => segStarts needle (c :: rest) || hasSeg needle rest

/-! ## Data model (`src/database.py` schema) -/

/-- A row of the `api_keys` table.  The audit columns `created_at` and
`updated_at` are written with `CURRENT_TIMESTAMP` and never read by any
modelled operation, so they are omitted here. -/
structure ApiKey where
  id : Nat
  name : String
  key_value : String
  provider : String
  is_active : Bool
  last_tested : Option String
  test_status : Option String
deriving DecidableEq, Repr

/-- A row of the `ai_models` table (`created_at` omitted as above). -/
structure ModelDef where
  id : String
  emoji : String
  name : String
  description : String
  category : String
  provider : String
  model_id : String
  is_enabled : Bool
  is_default : Bool
  priority : Int
deriving DecidableEq, Repr

/-- A row of the `activity_logs` table (sequence number and `created_at`
are implicit in the list position). -/
structure LogEntry where
  action : String
  details : Option String
  ip : Option String
deriving DecidableEq, Repr

/-- The whole store: one list per table.  `nextKeyId` models the
`AUTOINCREMENT` counter of `api_keys.id`.  Session expiries are seconds
since the epoch (the ISO-8601 strings the code compares are ordered
exactly like the underlying timestamps). -/
structure DBState where
  apiKeys : List ApiKey
  nextKeyId : Nat
  models : List ModelDef
  userModels : List (String × String)
  settings : List (String × String)
  sessions : List (String × Nat)
  activityLogs : List LogEntry
deriving DecidableEq, Repr

/-! ## Accessor operations (`Database` methods in `src/database.py`) -/

/-- `ORDER BY provider, name` on `api_keys`. -/
def keyLe (a b : ApiKey) : Bool :=
  decide (a.provider < b.provider) ||
    (decide (a.provider = b.provider) && decide (a.name ≤ b.name))

/-- `Database.get_all_api_keys` (database.py:182). -/
def get_all_api_keys (s : DBState) : List ApiKey :=
  sortByLe keyLe s.apiKeys

/-- `Database.add_api_key` (database.py:202): the `INSERT` raises
`IntegrityError` exactly when the UNIQUE `name` column already holds the
given name, in which case nothing is written. -/
def add_api_key (s : DBState) (name key_value provider : String) :
    DBState × Bool × String :=
  if s.apiKeys.any (fun k => decide (k.name = name)) then
    (s, false, "API key with this name already exists")
  else
    ({ s with
        apiKeys := s.apiKeys ++
          [⟨s.nextKeyId, name, key_value, provider, true, none, none⟩],
        nextKeyId := s.nextKeyId + 1 },
      true, "API key added successfully")

/-- `Database.update_api_key` (database.py:216): partial update of the row
with the given id; absent fields unchanged; always returns `True`.  When
both fields are absent the code executes no SQL, which coincides with the
identity update on the modelled columns. -/
def update_api_key (s : DBState) (key_id : Nat)
    (key_value : Option String) (is_active : Option Bool) : DBState × Bool :=
  ({ s with
      apiKeys := s.apiKeys.map (fun k =>
        if k.id = key_id then
          { k with
              key_value := key_value.getD k.key_value,
              is_active := is_active.getD k.is_active }
        else k) },
    true)

/-- `ORDER BY priority, name` on `ai_models`. -/
def modelLe (a b : ModelDef) : Bool :=
  decide (a.priority < b.priority) ||
    (decide (a.priority = b.priority) && decide (a.name ≤ b.name))

/-- `Database.get_all_models` (database.py:257). -/
def get_all_models (s : DBState) : List ModelDef :=
  sortByLe modelLe s.models

/-- `Database.add_model` (database.py:290): duplicate id raises
`IntegrityError`; otherwise the row is inserted with the table defaults
`is_enabled = 1`, `is_default = 0`, `priority = 100`. -/
def add_model (s : DBState)
    (id emoji name description category provider model_id : String) :
    DBState × Bool × String :=
  if s.models.any (fun m => decide (m.id = id)) then
    (s, false, "Model with this ID already exists")
  else
    ({ s with
        models := s.models ++
          [⟨id, emoji, name, description, category, provider, model_id,
            true, false, 100⟩] },
      true, "Model added successfully")

/-- The keyword arguments accepted by `Database.update_model`: exactly the
`valid_fields` list of database.py:308.  Keyword arguments outside this
list are dropped by the code and hence absent from the model. -/
structure ModelUpdate where
  emoji : Option String
  name : Option String
  description : Option String
  category : Option String
  provider : Option String
  model_id : Option String
  is_enabled : Option Bool
  is_default : Option Bool
  priority : Option Int
deriving DecidableEq, Repr

/-- The all-absent keyword-argument set. -/
def noUpdate : ModelUpdate :=
  ⟨none, none, none, none, none, none, none, none, none⟩

/-- `Database.update_model` (database.py:305): sets each supplied valid
field on the row with the given id; always returns `True`.  (With no
supplied field the code executes no SQL, which coincides with the
identity update.) -/
def update_model (s : DBState) (mid : String) (u : ModelUpdate) :
    DBState × Bool :=
  ({ s with
      models := s.models.map (fun m =>
        if m.id = mid then
          { m with
              emoji := u.emoji.getD m.emoji,
              name := u.name.getD m.name,
              description := u.description.getD m.description,
              category := u.category.getD m.category,
              provider := u.provider.getD m.provider,
              model_id := u.model_id.getD m.model_id,
              is_enabled := u.is_enabled.getD m.is_enabled,
              is_default := u.is_default.getD m.is_default,
              priority := u.priority.getD m.priority }
        else m) },
    true)

/-- `Database.set_default_model` (database.py:330): under one lock
acquisition, clear `is_default` everywhere, set it on the given id, and
`INSERT OR REPLACE` the `default_model` setting. -/
def set_default_model (s : DBState) (mid : String) : DBState :=
  let cleared := s.models.map (fun m => { m with is_default := false })
  let flagged := cleared.map (fun m =>
    if m.id = mid then { m with is_default := true } else m)
  { s with
      models := flagged,
      settings := upsertKV s.settings "default_model" mid }

/-- `Database.get_setting` (database.py:377) with no default supplied. -/
def get_setting (s : DBState) (key : String) : Option String :=
  lookupFirst s.settings key

/-- `Database.set_setting` (database.py:384): `INSERT OR REPLACE`. -/
def set_setting (s : DBState) (key value : String) : DBState :=
  { s with settings := upsertKV s.settings key value }

/-- `Database.get_all_settings` (database.py:395): every row of the
`settings` table, unfiltered. -/
def get_all_settings (s : DBState) : List (String × String) :=
  s.settings

/-- `Database.create_session` (database.py:404): purge rows whose expiry
is strictly before `now`, then insert the fresh token with expiry
`now + 86400`.  The random `token` is an explicit argument. -/
def create_session (s : DBState) (token : String) (now : Nat) : DBState :=
  { s with
      sessions :=
        (s.sessions.filter (fun p => !decide (p.2 < now))) ++
          [(token, now + 86400)] }

/-- `Database.validate_session` (database.py:416): false for the empty
(falsy) token, otherwise true iff some stored row has this token with
`expires_at > now`. -/
def validate_session (s : DBState) (token : String) (now : Nat) : Bool :=
  if token = "" then false
  else s.sessions.any (fun p => decide (p.1 = token) && decide (now < p.2))

/-- `Database.delete_session` (database.py:427). -/
def delete_session (s : DBState) (token : String) : DBState :=
  { s with sessions := s.sessions.filter (fun p => !decide (p.1 = token)) }

/-- `Database.add_activity_log` (database.py:436). -/
def add_activity_log (s : DBState) (action : String)
    (details ip : Option String) : DBState :=
  { s with activityLogs := s.activityLogs ++ [⟨action, details, ip⟩] }

/-! ## Route handlers (`src/app.py`) -/

/-- The masking expression of the key-listing handler (app.py:123):
`kv[:8] + '...' + kv[-4:]` for values longer than 12 characters,
otherwise the fixed mask `'****'`. -/
def mask_value (kv : String) : String :=
  if kv.data.length > 12 then
    String.mk (kv.data.take 8 ++ ['.', '.', '.'] ++
      kv.data.drop (kv.data.length - 4))
  else "****"

/-- One entry of the `GET /api/keys` response: the row dict returned by
`get_all_api_keys` (raw `key_value` included) plus the `key_masked`
field, which the loop adds only when `key_value` is truthy (non-empty). -/
structure KeyEntry where
  key : ApiKey
  key_masked : Option String
deriving DecidableEq, Repr

/-- `get_keys` handler (app.py:116). -/
def get_keys (s : DBState) : List KeyEntry :=
  (get_all_api_keys s).map (fun k =>
    ⟨k, if k.key_value = "" then none else some (mask_value k.key_value)⟩)

/-- The `keys` dict built by the `get_bot_config` handler (app.py:100):
`{k['name']: k['key_value'] for k in api_keys if k.get('is_active')}`. -/
def get_bot_config_keys (s : DBState) : List (String × String) :=
  ((get_all_api_keys s).filter (fun k => k.is_active)).map
    (fun k => (k.name, k.key_value))

/-- `get_settings` handler (app.py:292): the full settings dict with the
`admin_password_hash` entry popped. -/
def get_settings (s : DBState) : List (String × String) :=
  (get_all_settings s).filter (fun p => !decide (p.1 = "admin_password_hash"))

/-- The `for k, v in data.items()` loop of the `update_settings` handler
(app.py:303): upsert every payload entry except the
`admin_password_hash` key, which is skipped. -/
def update_settings_loop : List (String × String) → DBState → DBState
  | [], s => s
  | kv :: rest, s =>
    update_settings_loop rest
      (if kv.1 = "admin_password_hash" then s else set_setting s kv.1 kv.2)

/-- `update_settings` handler (app.py:299): run the payload loop, then
write one activity log entry; always responds with success. -/
def update_settings (s : DBState) (payload : List (String × String))
    (addr : String) : DBState × Bool :=
  (add_activity_log (update_settings_loop payload s)
    "Settings Updated" none (some addr), true)

/-- `verify_password` (app.py:29): the stored hash setting, falling back
to the digest of `'admin123'` when the setting is absent or falsy (empty),
compared with the digest of the supplied password.  The SHA-256 digest is
the abstract argument `hash`. -/
def verify_password (hash : String → String) (s : DBState)
    (password : String) : Bool :=
  let stored :=
    match get_setting s "admin_password_hash" with
    | none => hash "admin123"
    | some h => if h = "" then hash "admin123" else h
  decide (hash password = stored)

/-- `login` handler (app.py:55): on a correct password, create a session
and write a `'Login'` activity log entry carrying the caller's address;
on a wrong password, respond 401 without touching the store. -/
def login (hash : String → String) (s : DBState)
    (password addr token : String) (now : Nat) : DBState × Bool :=
  if verify_password hash s password then
    (add_activity_log (create_session s token now)
      "Login" (some "Admin logged in") (some addr), true)
  else (s, false)

/-- The method names defined on the `Database` class in
`src/database.py` (its complete `def` list). -/
def databaseMethods : List String :=
  ["__init__", "_get_conn", "_init_db", "_seed_default_models",
   "get_all_api_keys", "get_api_key", "add_api_key", "update_api_key",
   "delete_api_key", "update_api_test_result",
   "get_all_models", "get_enabled_models", "get_model", "add_model",
   "update_model", "delete_model", "set_default_model",
   "get_user_model", "set_user_model", "get_all_user_models",
   "delete_user_model",
   "get_setting", "set_setting", "get_all_settings",
   "create_session", "validate_session", "delete_session",
   "add_activity_log", "get_activity_logs", "get_test_logs"]

/-- `reset_models` handler (app.py:261): the body's first statement is
`db.reset_models()`.  Python resolves the attribute on the `Database`
object before calling; the class defines no method of that name, so the
lookup raises `AttributeError` and the handler aborts before the
activity-log write and before any response — the framework turns the
exception into a 500.  The `ok` branch is what the handler would do next
and is unreachable. -/
def reset_models (s : DBState) (addr : String) :
    Except String (DBState × Bool) :=
  if "reset_models" ∈ databaseMethods then
    Except.ok (add_activity_log s "Models Reset"
      (some "Reset to defaults") (some addr), true)
  else
    Except.error "AttributeError: 'Database' object has no attribute 'reset_models'"

/-! ## Helper lemmas -/

theorem insertLe_perm {α : Type} (le : α → α → Bool) (x : α) :
    ∀ l : List α, List.Perm (insertLe le x l) (x :: l)
  | [] => List.Perm.refl _
  | y :: ys => by
    by_cases h : le x y
    · simp [insertLe, h]
    · simp only [insertLe, h, Bool.false_eq_true, if_false]
      exact ((insertLe_perm le x ys).cons y).trans (List.Perm.swap x y ys)

theorem sortByLe_perm {α : Type} (le : α → α → Bool) :
    ∀ l : List α, List.Perm (sortByLe le l) l
  | [] => List.Perm.refl _
  | x :: xs =>
    (insertLe_perm le x (sortByLe le xs)).trans ((sortByLe_perm le xs).cons x)

theorem lookupFirst_eq_none_of_not_mem :
    ∀ (l : List (String × String)) (k : String),
      k ∉ l.map Prod.fst → lookupFirst l k = none
  | [], _, _ => rfl
  | (k', v') :: rest, k, h => by
    have hne : ¬k' = k := by
      intro he
      exact h (by simp [he])
    have hrest : k ∉ rest.map Prod.fst := by
      intro hm
      exact h (by simp [hm])
    simp [lookupFirst, hne, lookupFirst_eq_none_of_not_mem rest k hrest]

theorem dictGet_eq_none_of_not_mem :
    ∀ (l : List (String × String)) (k : String),
      k ∉ l.map Prod.fst → dictGet l k = none
  | [], _, _ => rfl
  | (k', v') :: rest, k, h => by
    have hne : ¬k' = k := by
      intro he
      exact h (by simp [he])
    have hrest : k ∉ rest.map Prod.fst := by
      intro hm
      exact h (by simp [hm])
    simp [dictGet, hne, dictGet_eq_none_of_not_mem rest k hrest]

theorem dictGet_eq_some_iff :
    ∀ (l : List (String × String)), (l.map Prod.fst).Nodup →
      ∀ (k v : String), (dictGet l k = some v ↔ (k, v) ∈ l)
  | [], _, k, v => by simp [dictGet]
  | (k', v') :: rest, hnd, k, v => by
    have hnd' : (rest.map Prod.fst).Nodup := (List.nodup_cons.mp (by simpa using hnd)).2
    have hk' : k' ∉ rest.map Prod.fst := (List.nodup_cons.mp (by simpa using hnd)).1
    by_cases h : k' = k
    · subst h
      have hrest : dictGet rest k' = none := dictGet_eq_none_of_not_mem rest k' hk'
      have hnotin : (k', v) ∉ rest := fun hm => hk' (List.mem_map.mpr ⟨(k', v), hm, rfl⟩)
      simp [dictGet, hrest]
      constructor
      · intro he
        exact Or.inl he.symm
      · intro hor
        rcases hor with he | hm
        · exact he.symm
        · exact absurd hm hnotin
    · have : ((k, v) ∈ (k', v') :: rest) ↔ (k, v) ∈ rest := by
        simp only [List.mem_cons]
        constructor
        · intro hor
          rcases hor with he | hm
          · exact absurd (congrArg Prod.fst he).symm h
          · exact hm
        · exact Or.inr
      rw [this, ← dictGet_eq_some_iff rest hnd' k v]
      simp only [dictGet]
      cases hd : dictGet rest k with
      | none => simp [h]
      | some w => simp

theorem lookupFirst_upsertKV_self :
    ∀ (l : List (String × String)) (k v : String),
      lookupFirst (upsertKV l k v) k = some v
  | [], k, v => by simp [upsertKV, lookupFirst]
  | (k', v') :: rest, k, v => by
    by_cases h : k' = k
    · simp [upsertKV, h, lookupFirst]
    · simp [upsertKV, h, lookupFirst, lookupFirst_upsertKV_self rest k v]

theorem lookupFirst_upsertKV_ne :
    ∀ (l : List (String × String)) (k v k'' : String), k'' ≠ k →
      lookupFirst (upsertKV l k v) k'' = lookupFirst l k''
  | [], k, v, k'', hne => by
    have hnk : ¬(k = k'') := fun he => hne he.symm
    simp [upsertKV, lookupFirst, hnk]
  | (k', v') :: rest, k, v, k'', hne => by
    by_cases h : k' = k
    · subst h
      have hnk : ¬(k' = k'') := fun he => hne he.symm
      simp [upsertKV, lookupFirst, hnk]
    · simp only [upsertKV, h, if_false, lookupFirst]
      by_cases h2 : k' = k''
      · simp [h2]
      · simp [h2, lookupFirst_upsertKV_ne rest k v k'' hne]

theorem nodup_map_inj {α β : Type} {f : α → β} :
    ∀ {l : List α}, (l.map f).Nodup →
      ∀ x, x ∈ l → ∀ y, y ∈ l → f x = f y → x = y
  | [], _, x, hx, _, _, _ => absurd hx (List.not_mem_nil x)
  | a :: t, hnd, x, hx, y, hy, hf => by
    have hna : f a ∉ t.map f := (List.nodup_cons.mp (by simpa using hnd)).1
    have hnd' : (t.map f).Nodup := (List.nodup_cons.mp (by simpa using hnd)).2
    rcases List.mem_cons.mp hx with hxa | hxt
    · rcases List.mem_cons.mp hy with hya | hyt
      · exact hxa.trans hya.symm
      · subst hxa
        exact absurd (hf ▸ List.mem_map.mpr ⟨y, hyt, rfl⟩) hna
    · rcases List.mem_cons.mp hy with hya | hyt
      · subst hya
        exact absurd (hf ▸ List.mem_map.mpr ⟨x, hxt, rfl⟩) hna
      · exact nodup_map_inj hnd' x hxt y hyt hf

theorem segStarts_iff :
    ∀ n h : List Char, (segStarts n h = true ↔ ∃ t, h = n ++ t)
  | [], h => by simp [segStarts]
  | a :: as, [] => by simp [segStarts]
  | a :: as, b :: bs => by
    simp only [segStarts, Bool.and_eq_true, decide_eq_true_eq, segStarts_iff as bs]
    constructor
    · rintro ⟨rfl, t, rfl⟩
      exact ⟨t, rfl⟩
    · rintro ⟨t, he⟩
      rw [List.cons_append] at he
      injection he with h1 h2
      exact ⟨h1.symm, t, h2⟩

theorem hasSeg_iff :
    ∀ n h : List Char, (hasSeg n h = true ↔ ∃ s t, h = s ++ n ++ t)
  | n, [] => by
    simp only [hasSeg, segStarts_iff]
    constructor
    · rintro ⟨t, he⟩
      exact ⟨[], t, by simpa using he⟩
    · rintro ⟨s, t, he⟩
      rcases List.append_eq_nil.mp (List.append_eq_nil.mp he.symm).1 with ⟨h1, h2⟩
      exact ⟨t, by simp [h2, (List.append_eq_nil.mp he.symm).2]⟩
  | n, c :: rest => by
    simp only [hasSeg, Bool.or_eq_true, segStarts_iff, hasSeg_iff n rest]
    constructor
    · rintro (⟨t, he⟩ | ⟨s, t, he⟩)
      · exact ⟨[], t, by simpa using he⟩
      · exact ⟨c :: s, t, by simp [he]⟩
    · rintro ⟨s, t, he⟩
      cases s with
      | nil => exact Or.inl ⟨t, by simpa using he⟩
      | cons s0 s' =>
        rw [List.cons_append, List.cons_append] at he
        injection he with h1 h2
        exact Or.inr ⟨s', t, h2⟩

/-! ## Claim C2 -/

/-- C2: For every store state, the bulk settings read exposed to callers
(the `GET /api/settings` handler, which pops the protected key from the
map produced by `Database.get_all_settings`) returns a settings map that
never contains the `admin_password_hash` key, even when that key is
present in the settings table. -/
theorem C2_get_settings_excludes_hash (s : DBState) :
    dictGet (get_settings s) "admin_password_hash" = none ∧
    (get_settings s).all (fun p => !decide (p.1 = "admin_password_hash")) = true := by
  have hnm : "admin_password_hash" ∉ (get_settings s).map Prod.fst := by
    intro hmem
    rcases List.mem_map.mp hmem with ⟨p, hp, hfst⟩
    have hcond := (List.mem_filter.mp hp).2
    simp [hfst] at hcond
  refine ⟨dictGet_eq_none_of_not_mem _ _ hnm, ?_⟩
  rw [List.all_eq_true]
  intro p hp
  exact (List.mem_filter.mp hp).2

/-! ## Claim C3 -/

theorem update_settings_loop_hash :
    ∀ (payload : List (String × String)) (s : DBState),
      get_setting (update_settings_loop payload s) "admin_password_hash" =
        get_setting s "admin_password_hash"
  | [], _ => rfl
  | kv :: rest, s => by
    rw [update_settings_loop]
    by_cases h : kv.1 = "admin_password_hash"
    · rw [if_pos h, update_settings_loop_hash rest s]
    · rw [if_neg h, update_settings_loop_hash rest _]
      show lookupFirst (upsertKV s.settings kv.1 kv.2) "admin_password_hash" =
        lookupFirst s.settings "admin_password_hash"
      exact lookupFirst_upsertKV_ne _ _ _ _ (fun he => h he.symm)

theorem update_settings_loop_not_mem :
    ∀ (payload : List (String × String)) (s : DBState) (k : String),
      k ∉ payload.map Prod.fst →
      get_setting (update_settings_loop payload s) k = get_setting s k
  | [], _, _, _ => rfl
  | kv :: rest, s, k, h => by
    have hk : ¬(kv.1 = k) := fun he => h (by simp [List.map_cons, he])
    have hrest : k ∉ rest.map Prod.fst := fun hm => h (by simp [hm])
    rw [update_settings_loop]
    by_cases hh : kv.1 = "admin_password_hash"
    · rw [if_pos hh]
      exact update_settings_loop_not_mem rest s k hrest
    · rw [if_neg hh, update_settings_loop_not_mem rest _ k hrest]
      show lookupFirst (upsertKV s.settings kv.1 kv.2) k = lookupFirst s.settings k
      exact lookupFirst_upsertKV_ne _ _ _ _ (fun he => hk he.symm)

theorem update_settings_loop_mem :
    ∀ (payload : List (String × String)) (s : DBState) (k v : String),
      (payload.map Prod.fst).Nodup → (k, v) ∈ payload →
      k ≠ "admin_password_hash" →
      get_setting (update_settings_loop payload s) k = some v
  | [], _, _, _, _, hm, _ => absurd hm (List.not_mem_nil _)
  | (k1, v1) :: rest, s, k, v, hnd, hm, hk => by
    have hnd' : (rest.map Prod.fst).Nodup := (List.nodup_cons.mp (by simpa using hnd)).2
    have hhead : k1 ∉ rest.map Prod.fst := (List.nodup_cons.mp (by simpa using hnd)).1
    rw [update_settings_loop]
    rcases List.mem_cons.mp hm with he | hmrest
    · injection he with hk1 hv1
      subst hk1
      subst hv1
      have hne : ¬((k, v).1 = "admin_password_hash") := by simpa using hk
      rw [if_neg hne, update_settings_loop_not_mem rest _ k hhead]
      show lookupFirst (upsertKV s.settings k v) k = some v
      exact lookupFirst_upsertKV_self _ _ _
    · by_cases hh : (k1, v1).1 = "admin_password_hash"
      · rw [if_pos hh]
        exact update_settings_loop_mem rest s k v hnd' hmrest hk
      · rw [if_neg hh]
        exact update_settings_loop_mem rest _ k v hnd' hmrest hk

/-- C3: A bulk settings update whose payload includes the
`admin_password_hash` key leaves the stored hash unchanged (the write to
that key is silently ignored), while every other key of the payload is
upserted with its payload value, and the operation still responds with
success. -/
theorem C3_update_settings (s : DBState) (payload : List (String × String))
    (addr : String) :
    (update_settings s payload addr).2 = true ∧
    get_setting (update_settings s payload addr).1 "admin_password_hash" =
      get_setting s "admin_password_hash" ∧
    ((payload.map Prod.fst).Nodup →
      ∀ k v, (k, v) ∈ payload → k ≠ "admin_password_hash" →
        get_setting (update_settings s payload addr).1 k = some v) := by
  refine ⟨rfl, ?_, ?_⟩
  · exact update_settings_loop_hash payload s
  · intro hnd k v hm hk
    exact update_settings_loop_mem payload s k v hnd hm hk

/-- A concrete store whose settings table holds the admin hash `"h0"`. -/
def exC3 : DBState := ⟨[], 1, [], [], [("admin_password_hash", "h0")], [], []⟩

theorem C3_update_settings_witness :
    (update_settings exC3
      [("admin_password_hash", "evil"), ("system_prompt", "hi")] "1.1.1.1").2 = true ∧
    get_setting (update_settings exC3
      [("admin_password_hash", "evil"), ("system_prompt", "hi")] "1.1.1.1").1
      "admin_password_hash" = get_setting exC3 "admin_password_hash" ∧
    get_setting (update_settings exC3
      [("admin_password_hash", "evil"), ("system_prompt", "hi")] "1.1.1.1").1
      "system_prompt" = some "hi" := by
  have h := C3_update_settings exC3
    [("admin_password_hash", "evil"), ("system_prompt", "hi")] "1.1.1.1"
  exact ⟨h.1, h.2.1, h.2.2 (by decide) "system_prompt" "hi" (by decide) (by decide)⟩

/-! ## Claim C5 -/

/-- C5: `validate_session` returns false for an empty/missing token and,
being a total lookup, never throws on a malformed (not-found) token; a
token just stored by `create_session` validates true immediately; a token
all of whose stored rows have expiry at or before the current time
validates false even though the rows are still present; and after
`delete_session` the token validates false. -/
theorem C5_sessions (s : DBState) (tok : String) (now t : Nat) :
    validate_session s "" t = false ∧
    (tok ∉ s.sessions.map Prod.fst → validate_session s tok t = false) ∧
    (tok ≠ "" → validate_session (create_session s tok now) tok now = true) ∧
    ((∀ e, (tok, e) ∈ s.sessions → e ≤ t) → validate_session s tok t = false) ∧
    validate_session (delete_session s tok) tok t = false := by
  refine ⟨rfl, ?_, ?_, ?_, ?_⟩
  · intro hnm
    by_cases h0 : tok = ""
    · simp [validate_session, h0]
    · simp only [validate_session, h0, if_false]
      rw [List.any_eq_false]
      intro q hq
      simp only [Bool.and_eq_true, decide_eq_true_eq, not_and]
      intro h1 _
      exact hnm (List.mem_map.mpr ⟨q, hq, h1⟩)
  · intro h0
    simp only [validate_session, create_session, h0, if_false]
    rw [List.any_eq_true]
    refine ⟨(tok, now + 86400), ?_, ?_⟩
    · exact List.mem_append_right _ (List.mem_singleton.mpr rfl)
    · simp only [Bool.and_eq_true, decide_eq_true_eq]
      exact ⟨by trivial, by omega⟩
  · intro hexp
    by_cases h0 : tok = ""
    · simp [validate_session, h0]
    · simp only [validate_session, h0, if_false]
      rw [List.any_eq_false]
      rintro ⟨qtok, qe⟩ hq
      simp only [Bool.and_eq_true, decide_eq_true_eq, not_and]
      rintro rfl hlt
      exact absurd hlt (by have := hexp qe hq; omega)
  · by_cases h0 : tok = ""
    · simp [validate_session, h0]
    · simp only [validate_session, delete_session, h0, if_false]
      rw [List.any_eq_false]
      intro q hq
      have hne := (List.mem_filter.mp hq).2
      simp only [Bool.not_eq_true', decide_eq_false_iff_not] at hne
      simp [hne]

/-- A concrete store holding one session row `("a", 5)`. -/
def exC5 : DBState := ⟨[], 1, [], [], [], [("a", 5)], []⟩

theorem C5_sessions_witness :
    validate_session exC5 "" 10 = false ∧
    validate_session exC5 "zzz" 10 = false ∧
    validate_session (create_session exC5 "b" 0) "b" 0 = true ∧
    validate_session exC5 "a" 10 = false ∧
    validate_session (delete_session exC5 "a") "a" 3 = false :=
  ⟨(C5_sessions exC5 "a" 0 10).1,
   (C5_sessions exC5 "zzz" 0 10).2.1 (by decide),
   (C5_sessions exC5 "b" 0 0).2.2.1 (by decide),
   (C5_sessions exC5 "a" 0 10).2.2.2.1
     (by
       intro e he
       simp only [exC5, List.mem_singleton, Prod.mk.injEq] at he
       omega),
   (C5_sessions exC5 "a" 0 3).2.2.2.2⟩

/-! ## Claim C6 -/

/-- C6: When an ApiKey named `n` already exists, `add_api_key` returns a
duplicate-name failure and leaves the whole store unchanged; when no
ApiKey is named `n`, it succeeds and appends the new row with
`is_active = true` and the next auto-increment id. -/
theorem C6_add_api_key (s : DBState) (n v p : String) :
    ((∃ k, k ∈ s.apiKeys ∧ k.name = n) →
      add_api_key s n v p = (s, false, "API key with this name already exists")) ∧
    ((∀ k, k ∈ s.apiKeys → k.name ≠ n) →
      add_api_key s n v p =
        ({ s with
            apiKeys := s.apiKeys ++ [⟨s.nextKeyId, n, v, p, true, none, none⟩],
            nextKeyId := s.nextKeyId + 1 },
          true, "API key added successfully")) := by
  constructor
  · rintro ⟨k, hk, hn⟩
    have hany : s.apiKeys.any (fun k => decide (k.name = n)) = true :=
      List.any_eq_true.mpr ⟨k, hk, by simp [hn]⟩
    simp [add_api_key, hany]
  · intro h
    have hany : s.apiKeys.any (fun k => decide (k.name = n)) = false := by
      rw [List.any_eq_false]
      intro k hk
      simp [h k hk]
    simp [add_api_key, hany]

/-- A concrete store holding one ApiKey named `"groq"`. -/
def exC6 : DBState :=
  ⟨[⟨1, "groq", "sk1", "groq", true, none, none⟩], 2, [], [], [], [], []⟩

theorem C6_add_api_key_witness :
    add_api_key exC6 "groq" "v2" "groq" =
      (exC6, false, "API key with this name already exists") ∧
    add_api_key exC6 "mistral" "v3" "mistral" =
      ({ exC6 with
          apiKeys := exC6.apiKeys ++ [⟨2, "mistral", "v3", "mistral", true, none, none⟩],
          nextKeyId := 3 },
        true, "API key added successfully") :=
  ⟨(C6_add_api_key exC6 "groq" "v2" "groq").1
      ⟨⟨1, "groq", "sk1", "groq", true, none, none⟩, by decide, rfl⟩,
   (C6_add_api_key exC6 "mistral" "v3" "mistral").2
      (by
        intro k hk
        simp only [exC6, List.mem_singleton] at hk
        subst hk
        decide)⟩

/-! ## Claim C4 -/

theorem bot_config_keys_mem (s : DBState) (n v : String) :
    (n, v) ∈ get_bot_config_keys s ↔
      ∃ k, k ∈ s.apiKeys ∧ k.name = n ∧ k.is_active = true ∧ k.key_value = v := by
  unfold get_bot_config_keys get_all_api_keys
  constructor
  · intro hm
    rcases List.mem_map.mp hm with ⟨k, hk, he⟩
    rcases List.mem_filter.mp hk with ⟨hk2, hact⟩
    injection he with h1 h2
    exact ⟨k, (sortByLe_perm keyLe s.apiKeys).mem_iff.mp hk2, h1, hact, h2⟩
  · rintro ⟨k, hk, h1, h2, h3⟩
    apply List.mem_map.mpr
    refine ⟨k, List.mem_filter.mpr
      ⟨(sortByLe_perm keyLe s.apiKeys).mem_iff.mpr hk, h2⟩, ?_⟩
    rw [h1, h3]

theorem bot_config_keys_nodup (s : DBState)
    (hnames : (s.apiKeys.map ApiKey.name).Nodup) :
    ((get_bot_config_keys s).map Prod.fst).Nodup := by
  unfold get_bot_config_keys get_all_api_keys
  rw [List.map_map]
  have hsorted : ((sortByLe keyLe s.apiKeys).map ApiKey.name).Nodup :=
    ((sortByLe_perm keyLe s.apiKeys).map ApiKey.name).nodup_iff.mpr hnames
  exact hsorted.sublist ((List.filter_sublist _).map ApiKey.name)

/-- C4: The bot-facing config endpoint's `keys` map contains exactly the
names of ApiKeys whose active flag is true, each mapped to its raw secret
value; and after deactivating an existing key through
`update_api_key (id, is_active := false)` the map no longer contains that
key's name.  The hypothesis is the UNIQUE constraint on `api_keys.name`. -/
theorem C4_bot_config (s : DBState)
    (hnames : (s.apiKeys.map ApiKey.name).Nodup) :
    (∀ n v, dictGet (get_bot_config_keys s) n = some v ↔
      ∃ k, k ∈ s.apiKeys ∧ k.name = n ∧ k.is_active = true ∧ k.key_value = v) ∧
    (∀ k0, k0 ∈ s.apiKeys →
      dictGet (get_bot_config_keys
        (update_api_key s k0.id none (some false)).1) k0.name = none) := by
  constructor
  · intro n v
    rw [dictGet_eq_some_iff _ (bot_config_keys_nodup s hnames) n v]
    exact bot_config_keys_mem s n v
  · intro k0 hk0
    apply dictGet_eq_none_of_not_mem
    intro hmem
    rcases List.mem_map.mp hmem with ⟨q, hq, hfst⟩
    rcases (bot_config_keys_mem _ q.1 q.2).mp (by exact hq) with
      ⟨k', hk', hname, hact, hval⟩
    have hs' : (update_api_key s k0.id none (some false)).1.apiKeys =
        s.apiKeys.map (fun k =>
          if k.id = k0.id then
            { k with
                key_value := (none : Option String).getD k.key_value,
                is_active := (some false).getD k.is_active }
          else k) := rfl
    rw [hs'] at hk'
    rcases List.mem_map.mp hk' with ⟨k, hk, hu⟩
    have h1 : k'.name = k.name := by
      rw [← hu]
      by_cases h : k.id = k0.id
      · simp [h]
      · simp [h]
    have hknm : k.name = k0.name := by
      rw [← h1, hname, hfst]
    have hkk0 : k = k0 := nodup_map_inj hnames k hk k0 hk0 hknm
    subst hkk0
    simp only [if_pos rfl] at hu
    rw [← hu] at hact
    simp at hact

/-- A concrete store holding one active ApiKey named `"groq"`. -/
def exC4 : DBState :=
  ⟨[⟨1, "groq", "sk-test123456789", "groq", true, none, none⟩],
    2, [], [], [], [], []⟩

theorem C4_bot_config_witness :
    dictGet (get_bot_config_keys exC4) "groq" = some "sk-test123456789" ∧
    dictGet (get_bot_config_keys
      (update_api_key exC4 1 none (some false)).1) "groq" = none :=
  ⟨((C4_bot_config exC4 (by decide)).1 "groq" "sk-test123456789").mpr
      ⟨⟨1, "groq", "sk-test123456789", "groq", true, none, none⟩,
        by decide, rfl, rfl, rfl⟩,
   (C4_bot_config exC4 (by decide)).2
     ⟨1, "groq", "sk-test123456789", "groq", true, none, none⟩ (by decide)⟩

/-! ## Claim C1 -/

theorem countP_default_map (mid : String) :
    ∀ l : List ModelDef,
      (((l.map (fun m => { m with is_default := false })).map (fun m =>
          if m.id = mid then { m with is_default := true } else m)).countP
        (fun m => m.is_default)) =
      l.countP (fun m => decide (m.id = mid))
  | [] => rfl
  | m :: rest => by
    simp only [List.map_cons]
    by_cases h : m.id = mid
    · rw [List.countP_cons_of_pos _ _ (by simp [h]),
        List.countP_cons_of_pos _ _ (by simp [h]),
        countP_default_map mid rest]
    · rw [List.countP_cons_of_neg _ _ (by simp [h]),
        List.countP_cons_of_neg _ _ (by simp [h]),
        countP_default_map mid rest]

theorem countP_id_eq_zero (mid : String) :
    ∀ l : List ModelDef, mid ∉ l.map ModelDef.id →
      l.countP (fun m => decide (m.id = mid)) = 0
  | [], _ => rfl
  | m :: rest, h => by
    have h1 : ¬(m.id = mid) := fun he => h (by simp [List.map_cons, he])
    have h2 : mid ∉ rest.map ModelDef.id := fun hm => h (by simp [hm])
    rw [List.countP_cons_of_neg _ _ (by simp [h1]), countP_id_eq_zero mid rest h2]

theorem countP_id_eq_one (mid : String) :
    ∀ l : List ModelDef, (l.map ModelDef.id).Nodup →
      mid ∈ l.map ModelDef.id →
      l.countP (fun m => decide (m.id = mid)) = 1
  | [], _, hm => absurd hm (List.not_mem_nil _)
  | m :: rest, hnd, hm => by
    have hhead : m.id ∉ rest.map ModelDef.id :=
      (List.nodup_cons.mp (by simpa using hnd)).1
    have hnd' : (rest.map ModelDef.id).Nodup :=
      (List.nodup_cons.mp (by simpa using hnd)).2
    by_cases h : m.id = mid
    · rw [List.countP_cons_of_pos _ _ (by simp [h]),
        countP_id_eq_zero mid rest (h ▸ hhead)]
    · have hm' : mid ∈ rest.map ModelDef.id := by
        have hm2 : mid ∈ ModelDef.id m :: rest.map ModelDef.id := by
          simpa only [List.map_cons] using hm
        rcases List.mem_cons.mp hm2 with he | hr
        · exact absurd he.symm h
        · exact hr
      rw [List.countP_cons_of_neg _ _ (by simp [h]),
        countP_id_eq_one mid rest hnd' hm']

/-- C1 (amended): For a `modelId` naming an existing model (the
hypotheses are existence and the PRIMARY KEY uniqueness of
`ai_models.id`), `set_default_model` performs its three writes in one
locked operation, after which exactly one model row has `is_default =
true`, that row's id is `modelId`, and the `default_model` setting equals
`modelId`.  (The generic `update_model` does *not* preserve the
at-most-one-default invariant; see the counterexample.) -/
theorem C1_set_default_model (s : DBState) (mid : String)
    (hids : (s.models.map ModelDef.id).Nodup)
    (hmem : mid ∈ s.models.map ModelDef.id) :
    ((get_all_models (set_default_model s mid)).countP
      (fun m => m.is_default)) = 1 ∧
    (∀ m, m ∈ (set_default_model s mid).models → m.is_default = true →
      m.id = mid) ∧
    get_setting (set_default_model s mid) "default_model" = some mid := by
  refine ⟨?_, ?_, ?_⟩
  · show ((sortByLe modelLe (set_default_model s mid).models).countP
      (fun m => m.is_default)) = 1
    rw [(sortByLe_perm modelLe _).countP_eq]
    show (((s.models.map (fun m => { m with is_default := false })).map
        (fun m => if m.id = mid then { m with is_default := true } else m)).countP
      (fun m => m.is_default)) = 1
    rw [countP_default_map mid s.models]
    exact countP_id_eq_one mid s.models hids hmem
  · intro m hm hd
    have hm' : m ∈ (s.models.map (fun m => { m with is_default := false })).map
        (fun m => if m.id = mid then { m with is_default := true } else m) := hm
    rcases List.mem_map.mp hm' with ⟨m1, hm1, he⟩
    by_cases h : m1.id = mid
    · rw [← he]
      simp [h]
    · rw [← he] at hd
      rcases List.mem_map.mp hm1 with ⟨m0, _, he0⟩
      rw [if_neg h, ← he0] at hd
      simp at hd
  · exact lookupFirst_upsertKV_self _ _ _

/-- The empty store (as after the operator deletes the seeded model
catalog through the delete endpoints); `nextKeyId` starts at 1. -/
def db0 : DBState := ⟨[], 1, [], [], [], [], []⟩

/-- A reachable store built by accessor calls alone: two models added
through `add_model`, then `set_default_model "m1"`.  It satisfies the
at-most-one-default invariant. -/
def exC1 : DBState :=
  set_default_model
    ((add_model (add_model db0 "m1" "e" "M1" "d" "main" "groq" "x").1
        "m2" "e" "M2" "d" "main" "groq" "y").1) "m1"

/-- C1 counterexample: from the invariant-satisfying reachable store
`exC1` (exactly one default), the generic model update
`update_model "m2" (is_default := true)` — the accessor behind
`PUT /api/models/m2` — produces *two* rows with `is_default = true`: the
claim that every other Accessor operation preserves the
at-most-one-default invariant is false, and a two-default store state is
reachable. -/
theorem C1_counterexample :
    exC1.models.countP (fun m => m.is_default) = 1 ∧
    ((update_model exC1 "m2"
        { noUpdate with is_default := some true }).1.models.countP
      (fun m => m.is_default)) = 2 := by
  constructor
  · decide
  · decide

/-- Witness for the amended C1 theorem at the concrete store `exC1`. -/
theorem C1_set_default_model_witness :
    ((get_all_models (set_default_model exC1 "m2")).countP
      (fun m => m.is_default)) = 1 ∧
    get_setting (set_default_model exC1 "m2") "default_model" = some "m2" :=
  ⟨(C1_set_default_model exC1 "m2" (by decide) (by decide)).1,
   (C1_set_default_model exC1 "m2" (by decide) (by decide)).2.2⟩

/-! ## Claim C7 -/

/-- C7 counterexample: for the secret value `"****"` (length at most 12)
the masked rendering is the fixed mask `"****"` itself, so the raw secret
occurs — in full — as a substring of the masked output, refuting the
claim's conjunct that the raw secret never occurs in the masked output. -/
theorem C7_counterexample :
    mask_value "****" = "****" ∧
    hasSeg "****".data (mask_value "****").data = true := by
  constructor
  · rfl
  · decide

/-- C7 (amended): for every secret value, unconditionally, the masked
rendering equals the first 8 characters, then `"..."`, then the last 4
characters when the secret is longer than 12 characters, and equals the
fixed 4-character mask `"****"` otherwise; and the raw secret does not
occur as a substring of the masked output provided it contains no `'.'`
character and at least one character other than `'*'` — the proviso
governs only the non-occurrence conjunct (the counterexample shows the
unconditional non-occurrence conjunct is false). -/
theorem C7_mask_value (v : String) :
    (v.data.length > 12 →
      (mask_value v).data =
        v.data.take 8 ++ ['.', '.', '.'] ++ v.data.drop (v.data.length - 4)) ∧
    (v.data.length ≤ 12 → mask_value v = "****") ∧
    ('.' ∉ v.data → (∃ c, c ∈ v.data ∧ c ≠ '*') →
      hasSeg v.data (mask_value v).data = false) := by
  refine ⟨?_, ?_, ?_⟩
  · intro hlen
    unfold mask_value
    rw [if_pos hlen]
  · intro hle
    unfold mask_value
    rw [if_neg (by omega : ¬v.data.length > 12)]
  · intro hdot hstar
    by_cases hlen : v.data.length > 12
    · apply Bool.eq_false_iff.mpr
      intro hcontra
      have hmask : (mask_value v).data =
          v.data.take 8 ++ ['.', '.', '.'] ++ v.data.drop (v.data.length - 4) := by
        unfold mask_value
        rw [if_pos hlen]
      rw [hmask] at hcontra
      rcases (hasSeg_iff _ _).mp hcontra with ⟨sfx, tfx, hdecomp⟩
      have hlent : (v.data.take 8).length = 8 := by
        rw [List.length_take]
        omega
      have hlend : (v.data.drop (v.data.length - 4)).length = 4 := by
        rw [List.length_drop]
        omega
      have hlen2 : sfx.length + v.data.length + tfx.length = 15 := by
        have hc := congrArg List.length hdecomp
        simp only [List.length_append, hlent, hlend] at hc
        simp only [List.length_cons, List.length_nil] at hc
        omega
      have hcv : v.data.count '.' = 0 := List.count_eq_zero.mpr hdot
      have hcs : sfx.count '.' ≤ sfx.length := List.count_le_length _ _
      have hct : tfx.count '.' ≤ tfx.length := List.count_le_length _ _
      have hcdots : (['.', '.', '.'] : List Char).count '.' = 3 := by decide
      have hcounts :
          (v.data.take 8).count '.' + 3 + (v.data.drop (v.data.length - 4)).count '.' =
          sfx.count '.' + tfx.count '.' := by
        have hc := congrArg (List.count '.') hdecomp
        rw [List.count_append, List.count_append, List.count_append,
          List.count_append, hcdots, hcv] at hc
        omega
      omega
    · apply Bool.eq_false_iff.mpr
      intro hcontra
      have hmask : mask_value v = "****" := by
        unfold mask_value
        rw [if_neg hlen]
      rw [hmask] at hcontra
      rcases (hasSeg_iff _ _).mp hcontra with ⟨sfx, tfx, hdecomp⟩
      rcases hstar with ⟨c, hc, hcne⟩
      have hcmem : c ∈ ("****" : String).data := by
        rw [hdecomp]
        exact List.mem_append.mpr (Or.inl (List.mem_append.mpr (Or.inr hc)))
      have hceq : c = '*' := by
        have hd : ("****" : String).data = ['*', '*', '*', '*'] := rfl
        rw [hd] at hcmem
        simpa using hcmem
      exact hcne hceq

theorem C7_mask_value_witness :
    (mask_value "sk-test123456789").data =
      "sk-test123456789".data.take 8 ++ ['.', '.', '.'] ++
        "sk-test123456789".data.drop ("sk-test123456789".data.length - 4) ∧
    hasSeg "sk-test123456789".data
      (mask_value "sk-test123456789").data = false :=
  ⟨(C7_mask_value "sk-test123456789").1 (by decide),
   (C7_mask_value "sk-test123456789").2.2 (by decide)
     ⟨'s', by decide, by decide⟩⟩

/-! ## Claim C8 -/

/-- C8 (code bug): the handler of `POST /api/models/reset` calls
`db.reset_models()` (app.py:264), but the `Database` class of
database.py defines no method of that name; for every store state the
request therefore raises `AttributeError` (surfaced as HTTP 500) without
wiping or re-seeding the model catalog and without writing the activity
log entry. -/
theorem C8_reset_models_raises (s : DBState) (addr : String) :
    databaseMethods.contains "reset_models" = false ∧
    reset_models s addr =
      Except.error
        "AttributeError: 'Database' object has no attribute 'reset_models'" := by
  refine ⟨by decide, ?_⟩
  have h : "reset_models" ∉ databaseMethods := by decide
  simp [reset_models, h]

/-! ## Claim C9 -/

/-- A concrete store whose settings table holds the admin hash
`"secret"` and whose activity log is empty. -/
def exC9 : DBState :=
  ⟨[], 1, [], [], [("admin_password_hash", "secret")], [], []⟩

/-- C9 counterexample: a failed login attempt (wrong password) writes no
activity log entry at all — the handler returns 401 with the store
unchanged, so over this concrete store the log stays empty.  The
abstract digest is instantiated with the identity function; the failure
path only requires the digest of the supplied password to differ from
the stored hash, which holds here, exactly as a wrong SHA-256 preimage
does in the code. -/
theorem C9_counterexample :
    (login (fun q => q) exC9 "wrong" "9.9.9.9" "tok" 0).2 = false ∧
    (login (fun q => q) exC9 "wrong" "9.9.9.9" "tok" 0).1.activityLogs = [] := by
  constructor
  · decide
  · decide

/-- C9 (amended): a successful operator login appends one `'Login'`
activity log entry carrying the caller's network address, but a failed
login leaves the store — in particular the activity log — completely
unchanged: failed attempts are not recorded. -/
theorem C9_login (hash : String → String) (s : DBState)
    (password addr token : String) (now : Nat) :
    (verify_password hash s password = true →
      (login hash s password addr token now).2 = true ∧
      (login hash s password addr token now).1.activityLogs =
        s.activityLogs ++ [⟨"Login", some "Admin logged in", some addr⟩]) ∧
    (verify_password hash s password = false →
      login hash s password addr token now = (s, false)) := by
  constructor
  · intro hv
    unfold login
    rw [if_pos hv]
    exact ⟨rfl, rfl⟩
  · intro hv
    unfold login
    rw [if_neg (by simp [hv])]

theorem C9_login_witness :
    ((login (fun q => q) exC9 "secret" "1.1.1.1" "tok2" 0).2 = true ∧
      (login (fun q => q) exC9 "secret" "1.1.1.1" "tok2" 0).1.activityLogs =
        exC9.activityLogs ++
          [⟨"Login", some "Admin logged in", some "1.1.1.1"⟩]) ∧
    login (fun q => q) exC9 "wrongpw" "1.1.1.1" "tok2" 0 = (exC9, false) :=
  ⟨(C9_login (fun q => q) exC9 "secret" "1.1.1.1" "tok2" 0).1 (by decide),
   (C9_login (fun q => q) exC9 "wrongpw" "1.1.1.1" "tok2" 0).2 (by decide)⟩

/-! ## Claim C10 -/

/-- C10 (amended): every stored ApiKey appears in the `GET /api/keys`
response as an entry whose `key_value` field holds the raw, unmasked
secret, with the `key_masked` field additionally holding the masked
rendering whenever the secret is nonempty; the full secret is thus
returned to any authenticated admin caller of the listing operation. -/
theorem C10_get_keys (s : DBState) :
    ∀ k, k ∈ s.apiKeys →
      (⟨k, if k.key_value = "" then none
           else some (mask_value k.key_value)⟩ : KeyEntry) ∈ get_keys s := by
  intro k hk
  unfold get_keys get_all_api_keys
  exact List.mem_map.mpr ⟨k, (sortByLe_perm keyLe s.apiKeys).mem_iff.mpr hk, rfl⟩

/-- A store reached by `add_api_key` followed by `update_api_key` with
the empty string as the new value (the update endpoint passes any
provided `key_value` through, including `""`). -/
def exC10 : DBState :=
  (update_api_key (add_api_key db0 "groq" "sk-test123456789" "groq").1
    1 (some "") none).1

/-- C10 counterexample: for a stored ApiKey whose secret is the empty
string (reachable, see `exC10`), the listing entry carries the raw
(empty) secret in `key_value` but *no* `key_masked` field — the handler
adds `key_masked` only for truthy values — so the claim's universally
quantified "in addition to the masked key_masked field" is false for
that entry. -/
theorem C10_counterexample :
    get_keys exC10 = [⟨⟨1, "groq", "", "groq", true, none, none⟩, none⟩] := by
  decide

/-- A store holding one ApiKey with a 16-character secret. -/
def exC10b : DBState :=
  (add_api_key db0 "mist" "sk-test123456789" "mist").1

theorem C10_get_keys_witness :
    (⟨⟨1, "mist", "sk-test123456789", "mist", true, none, none⟩,
      if ("sk-test123456789" : String) = "" then none
      else some (mask_value "sk-test123456789")⟩ : KeyEntry) ∈
      get_keys exC10b :=
  C10_get_keys exC10b
    ⟨1, "mist", "sk-test123456789", "mist", true, none, none⟩ (by decide)
